import Mathlib

/-!
Verification of the Debian optional-packages setup script
(`src/scripts/base.py`, class `DebianSetup`).

The script is embedded shallowly:

* Python string helpers (`str.strip`, `str.lower`, `str.split`, `int(...)`)
  are modelled as executable Lean functions on `String`.
* A process launch is an oracle value of type `ProcessOutcome`: either a
  completed process (return code, stdout, stderr) or a raised exception
  (modelling `subprocess.Popen`/`communicate` failing).
* The imperative driver (`run`, `install_packages`,
  `setup_docker_repository`, the install loop) threads an invocation
  counter into an environment `Nat → ProcessOutcome` and emits a trace of
  events (commands executed, files written, phase markers), so that
  ordering and continuation properties are statements about the trace.
-/

/-! ## Python string primitives -/

/-- The whitespace characters stripped by Python's `str.strip()`
(ASCII fragment; the script only ever meets ASCII input). -/
def pyWhitespace : List Char := [' ', '\t', '\n', '\r', '\x0b', '\x0c']

def isPySpace (c : Char) : Bool := pyWhitespace.contains c

def dropLeadingSpace : List Char → List Char
  | [] => []
  | c :: cs => if isPySpace c then dropLeadingSpace cs else c :: cs

/-- Python `s.strip()`: remove leading and trailing whitespace. -/
def pyStrip (s : String) : String :=
  ⟨(dropLeadingSpace (dropLeadingSpace s.data.reverse).reverse)⟩

/-- Python `s.lower()` (ASCII fragment). -/
def pyLower (s : String) : String := ⟨s.data.map Char.toLower⟩

def pySplitWsGo : List Char → List Char → List String
  | [], [] => []
  | [], acc => [⟨acc.reverse⟩]
  | c :: cs, acc =>
    if isPySpace c then
      match acc with
      | [] => pySplitWsGo cs []
      | _ :: _ => ⟨acc.reverse⟩ :: pySplitWsGo cs []
    else pySplitWsGo cs (c :: acc)

/-- Python `s.split()` with no separator: split on runs of whitespace,
dropping empty tokens.  This is the splitting `run_command` applies to a
string command when `shell=False` (line 94 of the source). -/
def pySplitWs (s : String) : List String := pySplitWsGo s.data []

def digitVal (c : Char) : Nat := c.toNat - 48

/-- Digit tail of Python `int(...)`: digits with single underscores allowed
between digits (`1_0` parses to `10`, `1_`, `_1`, `1__0` do not parse). -/
def pyDigitsGo : List Char → Nat → Option Nat
  | [], acc => some acc
  | '_' :: c :: cs, acc =>
    if c.isDigit then pyDigitsGo cs (acc * 10 + digitVal c) else none
  | ['_'], _ => none
  | c :: cs, acc =>
    if c.isDigit then pyDigitsGo cs (acc * 10 + digitVal c) else none

def pyDigits? : List Char → Option Nat
  | [] => none
  | c :: cs => if c.isDigit then pyDigitsGo cs (digitVal c) else none

/-- Python `int(s)` on a decimal string: surrounding whitespace allowed,
optional sign, at least one digit; `none` models `ValueError`. -/
def pyInt? (s : String) : Option Int :=
  match (pyStrip s).data with
  | '+' :: cs => (pyDigits? cs).map (fun n => (n : Int))
  | '-' :: cs => (pyDigits? cs).map (fun n => -(n : Int))
  | cs => (pyDigits? cs).map (fun n => (n : Int))

/-- Python `needle in haystack` helper: does the first list lead the second? -/
def leadsList : List Char → List Char → Bool
  | [], _ => true
  | _ :: _, [] => false
  | a :: as, b :: bs => a == b && leadsList as bs

def occursIn (needle : List Char) : List Char → Bool
  | [] => leadsList needle []
  | c :: rest => leadsList needle (c :: rest) || occursIn needle rest

/-- Python `s.startswith(p)`. -/
def pyStartsWith (s p : String) : Bool := leadsList p.data s.data

/-- Python substring test `needle in haystack` (used for
`"Candidate:" in apt_cache_output`, line 255 of the source). -/
def pyContains (haystack needle : String) : Bool :=
  occursIn needle.data haystack.data

def splitOnCharGo (sep : Char) : List Char → List Char → List String
  | [], acc => [⟨acc.reverse⟩]
  | c :: cs, acc =>
    if c = sep then ⟨acc.reverse⟩ :: splitOnCharGo sep cs []
    else splitOnCharGo sep cs (c :: acc)

/-- Python `s.split(sep)` for a one-character separator: `""` gives
`[""]`, adjacent separators are not merged. -/
def pySplitOnChar (sep : Char) (s : String) : List String :=
  splitOnCharGo sep s.data []

def pySplitComma (s : String) : List String := pySplitOnChar ',' s

def pySplitNl (s : String) : List String := pySplitOnChar '\n' s

/-! ## The selection parser (`display_package_menu`, lines 188-227)

The user's reply is `input(...).strip().lower()`.  `'all'` selects
`range(len(packages))`, `'none'` selects the empty set, anything else is
split on `','`; each token goes through `int(num.strip()) - 1` and is kept
only if `0 <= idx < len(packages)`.  A `ValueError` anywhere makes the
function re-prompt (recursive call), which we model by consuming the next
line of a list of pending input lines. -/

/-- Python `set.add`: a set of naturals modelled as a duplicate-free list;
only membership is ever consumed, so insertion order is immaterial. -/
def setAdd (s : List ℕ) (i : ℕ) : List ℕ := if i ∈ s then s else s ++ [i]

/-- The token loop of lines 195-198: `none` models the `ValueError` path. -/
def parseIndices : List String → Nat → List ℕ → Option (List ℕ)
  | [], _, acc => some acc
  | num :: rest, len, acc =>
    match pyInt? (pyStrip num) with
    | none => none
    | some n =>
      let idx := n - 1
      if 0 ≤ idx ∧ idx < (len : Int) then parseIndices rest len (setAdd acc idx.toNat)
      else parseIndices rest len acc

/-- Lines 190-198: turn the (already stripped and lowered) reply into the
set of selected 0-based indices, `none` modelling the re-prompt path. -/
def parseSelection (selection : String) (len : Nat) : Option (List ℕ) :=
  if selection = "all" then some (List.range len)
  else if selection = "none" then some ([] : List ℕ)
  else parseIndices (pySplitComma selection) len []

/-! ## The selection dictionary (lines 203-215) -/

def dictKeys (d : List (String × Bool)) : List String := d.map Prod.fst

/-- Python `result[k] = v` on an insertion-ordered dict modelled as an
association list. -/
def dictSet (d : List (String × Bool)) (k : String) (v : Bool) : List (String × Bool) :=
  if k ∈ dictKeys d then d.map (fun p => if p.1 = k then (k, v) else p)
  else d ++ [(k, v)]

/-- Lines 212-213: `for docker_pkg in docker_pkgs: result[docker_pkg] = True`. -/
def markSelected : List String → List (String × Bool) → List (String × Bool)
  | [], d => d
  | pkg :: rest, d => markSelected rest (dictSet d pkg true)

/-- Lines 208-215: `for i, pkg in enumerate(packages)` with the running
index made explicit; a selected `"docker"` entry is replaced by the docker
sub-packages, any other selected entry is inserted itself. -/
def processGo (dockerPkgs : List String) (sel : List ℕ) :
    Nat → List String → List (String × Bool) → List (String × Bool)
  | _, [], d => d
  | i, pkg :: rest, d =>
    processGo dockerPkgs sel (i + 1) rest
      (if i ∈ sel then
        (if pkg = "docker" then markSelected dockerPkgs d else dictSet d pkg true)
      else d)

def processSelections (packages dockerPkgs : List String) (sel : List ℕ) :
    List (String × Bool) :=
  processGo dockerPkgs sel 0 packages []

/-- `display_package_menu` over a list of pending input lines: a parse
failure re-prompts (consumes the next line); exhausting the input models
`input()` raising `EOFError` (which the menu does not catch). -/
def displayPackageMenu (packages dockerPkgs : List String) :
    List String → Option (List (String × Bool))
  | [] => none
  | line :: rest =>
    match parseSelection (pyLower (pyStrip line)) packages.length with
    | none => displayPackageMenu packages dockerPkgs rest
    | some sel => some (processSelections packages dockerPkgs sel)

/-- Line 285: `[pkg for pkg, selected in selected_packages_dict.items() if selected]`. -/
def selectedOf (d : List (String × Bool)) : List String :=
  (d.filter (fun p => p.2)).map Prod.fst

/-! ## `run_command` (lines 86-133)

A command is a Python string or a list of argument strings.  The outcome
of the underlying `subprocess.Popen`/`communicate` pair is an oracle: the
process either completes with a return code and output streams, or raises
an exception (caught by the `except` clause of `run_command`). -/

inductive Command where
  | str (s : String)
  | args (l : List String)
deriving DecidableEq

inductive ProcessOutcome where
  | ok (returncode : Int) (stdout stderr : String)
  | exn (msg : String)
deriving DecidableEq

/-- Lines 93-95: a string command is split on whitespace when
`shell=False`; a string with `shell=True` and a list command are passed to
`Popen` unchanged. -/
def prepareCommand : Command → Bool → Command
  | .str s, false => .args (pySplitWs s)
  | .str s, true => .str s
  | .args l, _ => .args l

/-- What a single `run_command` call produces: the argument actually
handed to `Popen`, the returned triple, and whether the two
`logger.error` lines of the failure path ran. -/
structure RunOutput where
  argv : Command
  returncode : Int
  stdout : String
  stderr : String
  errorLogged : Bool
deriving DecidableEq

/-- Lines 86-133.  The `try` body returns
`(returncode, stdout.strip(), stderr.strip())`; with `check=True` a
non-zero return code is additionally logged as an error (lines 123-126)
before the same `return` statement runs.  The `except` clause (lines
129-133) turns any exception into `(1, "", str(e))` with an error log. -/
def run_command (command : Command) (shell check : Bool)
    (outcome : ProcessOutcome) : RunOutput :=
  let prepared := prepareCommand command shell
  match outcome with
  | .ok rc out err => ⟨prepared, rc, pyStrip out, pyStrip err, check && !(rc == 0)⟩
  | .exn msg => ⟨prepared, 1, "", msg, true⟩

/-- Lines 135-139: `dpkg -l <package>` must exit 0 and some stripped
output line must start with `"ii"`. -/
def is_installed (outcome : ProcessOutcome) (package : String) : Bool :=
  let out := run_command (.str ("dpkg -l " ++ package)) true false outcome
  out.returncode == 0 &&
    ((pySplitNl out.stdout).any fun line => pyStartsWith (pyStrip line) "ii")

/-! ## Package lists and sorting (lines 232-274) -/

/-- The base package list literal of lines 232-248. -/
def basePkgs : List String :=
  ["1password-cli", "bitwarden-cli", "certbot", "cmake", "cockpit",
   "fail2ban", "fdupes", "ffmpeg", "nginx", "nodejs", "npm", "nvm",
   "pandoc", "rclone", "timeshift"]

/-- The five docker sub-packages of lines 257-263. -/
def dockerSubPkgs : List String :=
  ["containerd.io", "docker-buildx-plugin", "docker-ce", "docker-ce-cli",
   "docker-compose-plugin"]

/-- Byte-wise lexicographic `≤` on strings, the order Python's
`list.sort()` applies to ASCII strings. -/
def charsLe : List Char → List Char → Bool
  | [], _ => true
  | _ :: _, [] => false
  | a :: as, b :: bs =>
    if a.toNat < b.toNat then true
    else if a.toNat = b.toNat then charsLe as bs
    else false

def strLe (a b : String) : Bool := charsLe a.data b.data

def insertSorted (x : String) : List String → List String
  | [] => [x]
  | y :: ys => if strLe x y then x :: y :: ys else y :: insertSorted x ys

/-- `pkgs.sort()` of line 274 (insertion sort; the script's lists are
duplicate-free, so any correct ascending sort gives the same list). -/
def pySort (l : List String) : List String := l.foldr insertSorted []

/-- The displayed menu list: base packages, plus `"docker"` when the
apt-cache probe succeeded (line 265), plus `"plex"` (line 268), sorted
alphabetically (line 274). -/
def menuPackages (dockerAvailable : Bool) : List String :=
  pySort ((if dockerAvailable then basePkgs ++ ["docker"] else basePkgs) ++ ["plex"])

/-! ## Driver embedding: `run` / `install_packages` (lines 69-84, 229-374)

External behaviour is an oracle `World`: an environment mapping the n-th
process launch to its outcome, whether `/etc/apt/keyrings/docker.gpg`
already exists (line 149), whether the `open(...).write` of line 170
succeeds (an `OSError` there would propagate), and the pending stdin
lines.  Each step appends events to a trace, recording the phase
structure of the run and every command executed. -/

inductive Phase where
  | buildList | probeDocker | configureRepo | menuSelection | installLoop | summary
deriving DecidableEq

inductive Event where
  | phase (p : Phase)
  | cmd (command : String) (shell check : Bool)
  | fileWrite (path content : String)
deriving DecidableEq

structure World where
  env : Nat → ProcessOutcome
  dockerGpgExists : Bool
  fileWriteOk : Bool
  inputs : List String

/-- One `self.run_command(cmd, shell, check)` call: consume the next
process outcome from the environment and record the command. -/
def execCommand (env : Nat → ProcessOutcome) (calls : Nat)
    (command : String) (shell check : Bool) : RunOutput × Nat × List Event :=
  (run_command (.str command) shell check (env calls), calls + 1,
    [.cmd command shell check])

/-- One `self.is_installed(pkg)` call (lines 135-139). -/
def isInstalledExec (env : Nat → ProcessOutcome) (calls : Nat)
    (package : String) : Bool × Nat × List Event :=
  (is_installed (env calls) package, calls + 1,
    [.cmd ("dpkg -l " ++ package) true false])

/-- `setup_docker_repository` (lines 141-174).  The returned `Bool` is
`false` when the `open(...).write` raised, in which case `apt update` is
not reached and the exception propagates to `run`. -/
def setup_docker_repository (env : Nat → ProcessOutcome) (calls : Nat)
    (gpgExists fileWriteOk : Bool) : Nat × List Event × Bool :=
  let r1 := execCommand env calls "install -m 0755 -d /etc/apt/keyrings" true true
  let key : Nat × List Event :=
    if gpgExists then (r1.2.1, r1.2.2)
    else
      let ra := execCommand env r1.2.1
        "curl -fsSL https://download.docker.com/linux/debian/gpg | gpg --dearmor -o /etc/apt/keyrings/docker.gpg"
        true true
      let rb := execCommand env ra.2.1 "chmod a+r /etc/apt/keyrings/docker.gpg" true true
      (rb.2.1, r1.2.2 ++ ra.2.2 ++ rb.2.2)
  let rCodename := execCommand env key.1
    ". /etc/os-release && echo \"$VERSION_CODENAME\"" true true
  let rArch := execCommand env rCodename.2.1 "dpkg --print-architecture" true true
  let dockerRepo := "deb [arch=" ++ rArch.1.stdout
    ++ " signed-by=/etc/apt/keyrings/docker.gpg] https://download.docker.com/linux/debian "
    ++ rCodename.1.stdout ++ " stable"
  if fileWriteOk then
    let rUpd := execCommand env rArch.2.1 "apt update" true true
    (rUpd.2.1,
      key.2 ++ rCodename.2.2 ++ rArch.2.2
        ++ [.fileWrite "/etc/apt/sources.list.d/docker.list" (dockerRepo ++ "\n")]
        ++ rUpd.2.2,
      true)
  else (rArch.2.1, key.2 ++ rCodename.2.2 ++ rArch.2.2, false)

/-- The `"plex"` branch of the install loop (lines 290-308). -/
def installPlex (env : Nat → ProcessOutcome) (c : Nat) : Nat × List Event :=
  let probe := isInstalledExec env c "plexmediaserver"
  if probe.1 then (probe.2.1, probe.2.2)
  else
    let r1 := execCommand env probe.2.1
      "curl -fsSL https://downloads.plex.tv/plex-keys/PlexSign.key | gpg --dearmor | tee /usr/share/keyrings/plex.gpg > /dev/null"
      true false
    let r2 := execCommand env r1.2.1
      "echo \"deb [signed-by=/usr/share/keyrings/plex.gpg] https://downloads.plex.tv/repo/deb public main\" | tee /etc/apt/sources.list.d/plexmediaserver.list > /dev/null"
      true false
    let r3 := execCommand env r2.2.1 "apt update > /dev/null" true false
    let r4 := execCommand env r3.2.1 "apt install -y plexmediaserver" true false
    let r5 := execCommand env r4.2.1 "systemctl enable plexmediaserver" true false
    let r6 := execCommand env r5.2.1 "systemctl start plexmediaserver" true false
    (r6.2.1, probe.2.2 ++ r1.2.2 ++ r2.2.2 ++ r3.2.2 ++ r4.2.2 ++ r5.2.2 ++ r6.2.2)

/-- The `"bitwarden-cli"` branch (lines 309-325). -/
def installBitwardenCli (env : Nat → ProcessOutcome) (c : Nat) : Nat × List Event :=
  let be := isInstalledExec env c "build-essential"
  let r1 : Nat × List Event :=
    if be.1 then (be.2.1, ([] : List Event))
    else
      let ra := execCommand env be.2.1 "apt install -y build-essential" true false
      (ra.2.1, ra.2.2)
  let np := isInstalledExec env r1.1 "npm"
  let r2 : Nat × List Event :=
    if np.1 then (np.2.1, ([] : List Event))
    else
      let rb := execCommand env np.2.1 "apt install -y npm" true false
      (rb.2.1, rb.2.2)
  let r3 := execCommand env r2.1 "npm install -g @bitwarden/cli" true false
  (r3.2.1, be.2.2 ++ r1.2 ++ np.2.2 ++ r2.2 ++ r3.2.2)

/-- The `"1password-cli"` branch (lines 326-350). -/
def installOnePasswordCli (env : Nat → ProcessOutcome) (c : Nat) : Nat × List Event :=
  let r1 := execCommand env c "apt update" true false
  let r2 := execCommand env r1.2.1
    "apt install -y gnupg2 apt-transport-https ca-certificates software-properties-common"
    true false
  let r3 := execCommand env r2.2.1
    "curl -fsSL https://downloads.1password.com/linux/keys/1password.asc | gpg --dearmor --output /usr/share/keyrings/1password-archive-keyring.gpg"
    true false
  let r4 := execCommand env r3.2.1
    "echo \"deb [arch=amd64 signed-by=/usr/share/keyrings/1password-archive-keyring.gpg] https://downloads.1password.com/linux/debian/amd64 stable main\" | tee /etc/apt/sources.list.d/1password.list > /dev/null"
    true false
  let r5 := execCommand env r4.2.1 "mkdir -p /etc/debsig/policies/AC2D62742012EA22/" true false
  let r6 := execCommand env r5.2.1
    "curl -fsSL https://downloads.1password.com/linux/debian/debsig/1password.pol | tee /etc/debsig/policies/AC2D62742012EA22/1password.pol > /dev/null"
    true false
  let r7 := execCommand env r6.2.1 "mkdir -p /usr/share/debsig/keyrings/AC2D62742012EA22/" true false
  let r8 := execCommand env r7.2.1
    "curl -fsSL https://downloads.1password.com/linux/keys/1password.asc | gpg --dearmor --output /usr/share/debsig/keyrings/AC2D62742012EA22/debsig.gpg"
    true false
  let r9 := execCommand env r8.2.1 "apt update > /dev/null && apt install -y 1password-cli" true false
  (r9.2.1, r1.2.2 ++ r2.2.2 ++ r3.2.2 ++ r4.2.2 ++ r5.2.2 ++ r6.2.2 ++ r7.2.2
    ++ r8.2.2 ++ r9.2.2)

/-- The `"nvm"` branch (lines 351-355). -/
def installNvm (env : Nat → ProcessOutcome) (c : Nat) : Nat × List Event :=
  let r1 := execCommand env c "apt install -y nvm" true false
  (r1.2.1, r1.2.2)

/-- The generic branch (lines 356-360). -/
def installGeneric (env : Nat → ProcessOutcome) (c : Nat) (pkg : String) :
    Nat × List Event :=
  let probe := isInstalledExec env c pkg
  if probe.1 then (probe.2.1, probe.2.2)
  else
    let r1 := execCommand env probe.2.1 ("apt install -y " ++ pkg) true false
    (r1.2.1, probe.2.2 ++ r1.2.2)

/-- One iteration of the `for pkg in selected_pkgs` loop (lines 289-360). -/
def installOne (env : Nat → ProcessOutcome) (c : Nat) (pkg : String) :
    Nat × List Event :=
  if pkg = "plex" then installPlex env c
  else if pkg = "bitwarden-cli" then installBitwardenCli env c
  else if pkg = "1password-cli" then installOnePasswordCli env c
  else if pkg = "nvm" then installNvm env c
  else installGeneric env c pkg

def installLoopGo (env : Nat → ProcessOutcome) : List String → Nat → Nat × List Event
  | [], c => (c, [])
  | pkg :: rest, c =>
    let one := installOne env c pkg
    let restR := installLoopGo env rest one.1
    (restR.1, one.2 ++ restR.2)

/-- `install_packages` (lines 229-360).  The final `Bool` is `true` when
the function returned normally and `false` when an exception escaped
(either the repository-file write raised, or `input()` raised `EOFError`
with the pending input exhausted). -/
def install_packages (w : World) : Nat × List Event × Bool :=
  let probe := execCommand w.env 0 "apt-cache policy docker-ce" true false
  let dockerAvailable := pyContains probe.1.stdout "Candidate:"
  let dockerPkgs := if dockerAvailable then dockerSubPkgs else []
  let repo := setup_docker_repository w.env probe.2.1 w.dockerGpgExists w.fileWriteOk
  let pre := [Event.phase .buildList, Event.phase .probeDocker] ++ probe.2.2
    ++ [Event.phase .configureRepo] ++ repo.2.1
  if repo.2.2 then
    let pkgs := menuPackages dockerAvailable
    let menuTrace := pre ++ [Event.phase .menuSelection]
    match displayPackageMenu pkgs dockerPkgs w.inputs with
    | none => (repo.1, menuTrace, false)
    | some result =>
      let selected := selectedOf result
      let loop := installLoopGo w.env selected repo.1
      (loop.1, menuTrace ++ [Event.phase .installLoop] ++ loop.2, true)
  else (repo.1, pre, false)

/-- `finalize_script` (lines 362-374): exit 1 when the error flag is set,
else exit 0, after printing the summary. -/
def finalize_script (errorFlag : Bool) : Nat × List Event :=
  ((if errorFlag then 1 else 0), [Event.phase .summary])

structure RunResult where
  trace : List Event
  raised : Bool
  errorFlag : Bool
  exitCode : Nat

/-- `run` (lines 69-84): `install_packages` then `finalize_script` inside
`try`; any exception sets `self.error_flag`, is logged, and leads to
`sys.exit(1)`.  `error_flag` is initialised `False` (line 67) and set
nowhere else, so the normal path reaches `finalize_script` with it
unset. -/
def runProgram (w : World) : RunResult :=
  let r := install_packages w
  if r.2.2 then
    let fin := finalize_script false
    ⟨r.2.1 ++ fin.2, false, false, fin.1⟩
  else ⟨r.2.1, true, true, 1⟩

/-- A concrete world used by the witnesses: every process succeeds, the
apt-cache probe reports a candidate (so docker is offered), the docker
GPG key already exists, the file write succeeds, and the user answers
`none`. -/
def sampleEnv : Nat → ProcessOutcome := fun _ => .ok 0 "Candidate: 5:24.0" ""

def sampleWorld : World := ⟨sampleEnv, true, true, ["none"]⟩

/-- The commands recorded in a trace, in execution order. -/
def cmdsOf (es : List Event) : List String :=
  es.filterMap fun e => match e with | .cmd c _ _ => some c | _ => none

/-- The phase markers recorded in a trace, in the order the phases were
entered. -/
def phasesOf (es : List Event) : List Phase :=
  es.filterMap fun e => match e with | .phase p => some p | _ => none

/-- The phase order the specification prescribes. -/
def canonicalPhases : List Phase :=
  [.buildList, .probeDocker, .configureRepo, .menuSelection, .installLoop, .summary]

/-- An environment in which every process exits with status 1. -/
def envAllFail : Nat → ProcessOutcome := fun _ => .ok 1 "" "boom"

example : pyInt? " 12 " = some 12 := by decide
example : pyInt? "1_0" = some 10 := by decide
example : pyInt? "abc" = none := by decide
example : pyInt? "" = none := by decide
example : pyInt? "-3" = some (-3) := by decide
example : parseSelection "all" 3 = some (List.range 3) := by decide
example : parseSelection "none" 3 = some [] := by decide
example : parseSelection "1,3" 3 = some [0, 2] := by decide
example : parseSelection "99" 3 = some [] := by decide
example : parseSelection "1,x" 3 = none := by decide
example : pySplitWs "dpkg -l  foo" = ["dpkg", "-l", "foo"] := by decide
example : pyContains "Candidate: 5:24" "Candidate:" = true := by decide
example : pyContains "Candidate" "Candidate:" = false := by decide
example : menuPackages true =
    ["1password-cli", "bitwarden-cli", "certbot", "cmake", "cockpit",
     "docker", "fail2ban", "fdupes", "ffmpeg", "nginx", "nodejs", "npm",
     "nvm", "pandoc", "plex", "rclone", "timeshift"] := by decide
example : (menuPackages true).indexOf "docker" = 5 := by decide
example : is_installed (.ok 0 "ii  nginx  1.22  amd64  web server" "") "nginx" = true := by
  decide
example : is_installed (.ok 0 "rc  nginx  1.22  amd64  removed" "") "nginx" = false := by
  decide

/-! ## Claim theorems -/

/-- C7: for every command passed to `run_command` as a string with
`shell=False`, the string is split on whitespace into an argument list
before the process is launched, while a string passed with `shell=True`
and a command already given as a list reach `Popen` unmodified. -/
theorem non_shell_string_split (s : String) (l : List String) (sh ch : Bool)
    (o : ProcessOutcome) :
    (run_command (.str s) false ch o).argv = .args (pySplitWs s)
    ∧ (run_command (.str s) true ch o).argv = .str s
    ∧ (run_command (.args l) sh ch o).argv = .args l := by
  cases o <;> cases sh <;> exact ⟨rfl, rfl, rfl⟩

/-- C8: `run_command` is total at its interface: it always returns a
(return code, stdout, stderr) triple, and when launching or communicating
with the process raises an exception it returns return code 1, empty
stdout and the exception message as stderr; a completed process yields its
return code and its stripped output streams. -/
theorem run_command_total_interface (c : Command) (sh ch : Bool) (m : String)
    (rc : Int) (out err : String) :
    (run_command c sh ch (.exn m)).returncode = 1
    ∧ (run_command c sh ch (.exn m)).stdout = ""
    ∧ (run_command c sh ch (.exn m)).stderr = m
    ∧ (run_command c sh ch (.ok rc out err)).returncode = rc
    ∧ (run_command c sh ch (.ok rc out err)).stdout = pyStrip out
    ∧ (run_command c sh ch (.ok rc out err)).stderr = pyStrip err :=
  ⟨rfl, rfl, rfl, rfl, rfl, rfl⟩

/-- C10: `is_installed` reports a package installed iff the `dpkg -l`
query exits with status 0 and some (stripped) line of its (stripped)
output starts with `"ii"`; in particular an output whose lines carry the
`rc` (removed-but-configured) status yields `false` even with exit
status 0. -/
theorem is_installed_characterization (package : String) (rc : Int)
    (stdout stderr : String) :
    (is_installed (.ok rc stdout stderr) package = true ↔
      rc = 0 ∧ ∃ line ∈ pySplitNl (pyStrip stdout),
        pyStartsWith (pyStrip line) "ii" = true)
    ∧ is_installed
        (.ok 0 "rc  plexmediaserver  1.32  amd64  removed, config remains" "")
        package = false := by
  constructor
  · simp [is_installed, run_command, List.any_eq_true, beq_iff_eq]
  · simp [is_installed, run_command]
    decide

/-- C10 witness: a concrete `ii` line is reported installed through the
characterization. -/
theorem is_installed_characterization_witness :
    is_installed (.ok 0 "ii  nginx  1.22.1  amd64  web server" "") "nginx" = true :=
  (is_installed_characterization "nginx" 0
    "ii  nginx  1.22.1  amd64  web server" "").1.mpr (by decide)

/-- C2 counterexample: the claim says a strict-checked (`check=True`)
command that exits non-zero aborts the remaining steps.  In the code the
failure is only logged: `run_command` returns the triple normally, and in
`setup_docker_repository` (whose commands all use `check=True`) an
environment in which the very first command fails still executes every
following command, up to and including `apt update`. -/
theorem check_true_failure_continues :
    (run_command (.str "install -m 0755 -d /etc/apt/keyrings") true true
      (.ok 1 "" "boom")).returncode = 1
    ∧ (run_command (.str "install -m 0755 -d /etc/apt/keyrings") true true
        (.ok 1 "" "boom")).errorLogged = true
    ∧ cmdsOf (setup_docker_repository envAllFail 0 true true).2.1 =
        ["install -m 0755 -d /etc/apt/keyrings",
         ". /etc/os-release && echo \"$VERSION_CODENAME\"",
         "dpkg --print-architecture",
         "apt update"] :=
  ⟨rfl, rfl, by decide⟩

/-- C2 (amended): commands run with `check=True` log an error on non-zero
exit status whereas `check=False` logs nothing; in both modes
`run_command` returns the identical triple and execution continues: the
command sequence of the strict-checked repository setup does not depend
on any process outcome. -/
theorem check_flag_logs_only (c : Command) (sh : Bool) (o : ProcessOutcome)
    (rc : Int) (out err : String)
    (env env2 : Nat → ProcessOutcome) (calls calls2 : Nat) (g f : Bool) :
    ((run_command c sh true o).returncode = (run_command c sh false o).returncode
      ∧ (run_command c sh true o).stdout = (run_command c sh false o).stdout
      ∧ (run_command c sh true o).stderr = (run_command c sh false o).stderr)
    ∧ (run_command c sh true (.ok rc out err)).errorLogged = !(rc == 0)
    ∧ (run_command c sh false (.ok rc out err)).errorLogged = false
    ∧ cmdsOf (setup_docker_repository env calls g f).2.1 =
        cmdsOf (setup_docker_repository env2 calls2 g f).2.1 := by
  refine ⟨by cases o <;> exact ⟨rfl, rfl, rfl⟩, by simp [run_command], rfl, ?_⟩
  cases g <;> cases f <;>
    simp [setup_docker_repository, execCommand, cmdsOf]

/-- C5: the program exits 0 exactly when the run completes with the error
flag unset; an uncaught exception reaching `run` sets the flag and exits
1, and a set flag at the final summary exits 1 (`finalize_script`). -/
theorem exit_code_policy (w : World) :
    ((runProgram w).exitCode = 0 ↔
      ((runProgram w).raised = false ∧ (runProgram w).errorFlag = false))
    ∧ ((runProgram w).raised = true →
        (runProgram w).errorFlag = true ∧ (runProgram w).exitCode = 1)
    ∧ ((runProgram w).errorFlag = true → (runProgram w).exitCode = 1)
    ∧ (finalize_script true).1 = 1 ∧ (finalize_script false).1 = 0 := by
  by_cases h : (install_packages w).2.2 <;>
    simp [runProgram, finalize_script, h]

/-- C5 witness: a fully successful world exits 0. -/
theorem exit_code_policy_witness : (runProgram sampleWorld).exitCode = 0 :=
  (exit_code_policy sampleWorld).1.mpr (by decide)

/-! ## Parser lemmas (claims C1, C4) -/

theorem mem_setAdd (s : List ℕ) (i x : ℕ) :
    x ∈ setAdd s i ↔ x ∈ s ∨ x = i := by
  unfold setAdd
  split_ifs with h
  · constructor
    · exact Or.inl
    · rintro (hx | rfl)
      · exact hx
      · exact h
  · simp

theorem parseIndices_bounds :
    ∀ (toks : List String) (len : Nat) (acc sel : List ℕ),
      (∀ i ∈ acc, i < len) → parseIndices toks len acc = some sel →
      ∀ i ∈ sel, i < len := by
  intro toks
  induction toks with
  | nil =>
    intro len acc sel hacc h
    rw [parseIndices] at h
    cases h
    exact hacc
  | cons num rest ih =>
    intro len acc sel hacc h
    rw [parseIndices] at h
    cases hp : pyInt? (pyStrip num) with
    | none => rw [hp] at h; cases h
    | some n =>
      rw [hp] at h
      simp only at h
      split_ifs at h with hidx
      · refine ih len _ sel ?_ h
        intro i hi
        rcases (mem_setAdd acc (n - 1).toNat i).1 hi with h1 | rfl
        · exact hacc i h1
        · omega
      · exact ih len acc sel hacc h

theorem parseIndices_none_iff :
    ∀ (toks : List String) (len : Nat) (acc : List ℕ),
      parseIndices toks len acc = none ↔
        ∃ t ∈ toks, pyInt? (pyStrip t) = none := by
  intro toks
  induction toks with
  | nil => intro len acc; simp [parseIndices]
  | cons num rest ih =>
    intro len acc
    rw [parseIndices]
    cases hp : pyInt? (pyStrip num) with
    | none => simp [hp]
    | some n =>
      simp only [hp, List.mem_cons]
      split_ifs with hidx
      · rw [ih]
        constructor
        · rintro ⟨t, ht, hn⟩; exact ⟨t, Or.inr ht, hn⟩
        · rintro ⟨t, rfl | ht, hn⟩
          · rw [hp] at hn; cases hn
          · exact ⟨t, ht, hn⟩
      · rw [ih]
        constructor
        · rintro ⟨t, ht, hn⟩; exact ⟨t, Or.inr ht, hn⟩
        · rintro ⟨t, rfl | ht, hn⟩
          · rw [hp] at hn; cases hn
          · exact ⟨t, ht, hn⟩

/-- C1 (amended): every numeric index the user supplies is bounds-checked
— any index outside `[1, len(packages)]` is silently discarded and never
contributes to the selection result — but, contrary to the claim's
re-prompt clause, only input containing a non-numeric token makes the
parse fail, and exactly then does the menu re-prompt (consume the next
pending input line). -/
theorem menu_selection_bounds_and_reprompt (packages dockerPkgs : List String)
    (line : String) (rest : List String) (len : Nat) (s : String) :
    (∀ sel, parseSelection s len = some sel → ∀ i ∈ sel, i < len)
    ∧ (parseSelection s len = none ↔
        s ≠ "all" ∧ s ≠ "none" ∧ ∃ t ∈ pySplitComma s, pyInt? (pyStrip t) = none)
    ∧ (parseSelection (pyLower (pyStrip line)) packages.length = none →
        displayPackageMenu packages dockerPkgs (line :: rest) =
          displayPackageMenu packages dockerPkgs rest) := by
  refine ⟨?_, ?_, ?_⟩
  · intro sel h i hi
    unfold parseSelection at h
    split_ifs at h with h1 h2
    · cases h; simpa using List.mem_range.1 hi
    · cases h; cases hi
    · exact parseIndices_bounds _ len [] sel (by simp) h i hi
  · unfold parseSelection
    split_ifs with h1 h2
    · simp [h1]
    · simp [h2]
    · simp [h1, h2, parseIndices_none_iff]
  · intro h
    rw [displayPackageMenu, h]

/-- C1 witness: a reply with the non-numeric token `x` makes the menu
re-prompt with the remaining input. -/
theorem menu_selection_bounds_and_reprompt_witness :
    displayPackageMenu (menuPackages true) dockerSubPkgs ["1,x", "none"] =
      displayPackageMenu (menuPackages true) dockerSubPkgs ["none"] :=
  (menu_selection_bounds_and_reprompt (menuPackages true) dockerSubPkgs
    "1,x" ["none"] 0 "").2.2 (by decide)

/-- C1 counterexample: the reply `99` contains an index far outside the
17-entry package list, yet the menu does not re-prompt: it accepts the
selection, returning the empty result on the very first input line
(with an exhausted input list, a re-prompt would instead have produced
`none`, as the second conjunct shows). -/
theorem menu_out_of_range_accepted :
    displayPackageMenu (menuPackages true) dockerSubPkgs ["99"] = some []
    ∧ displayPackageMenu (menuPackages true) dockerSubPkgs [] = none :=
  ⟨by decide, rfl⟩

/-! ## Dictionary lemmas (claims C3, C4, C9) -/

theorem dictKeys_dictSet (d : List (String × Bool)) (k : String) (v : Bool) :
    dictKeys (dictSet d k v) =
      if k ∈ dictKeys d then dictKeys d else dictKeys d ++ [k] := by
  unfold dictSet dictKeys
  split_ifs with hk
  · rw [List.map_map]
    refine List.map_congr_left ?_
    intro p hp
    by_cases hpk : p.1 = k <;> simp [hpk]
  · simp

theorem mem_dictKeys_dictSet (d : List (String × Bool)) (k x : String) (v : Bool) :
    x ∈ dictKeys (dictSet d k v) ↔ x ∈ dictKeys d ∨ x = k := by
  rw [dictKeys_dictSet]
  split_ifs with hk
  · constructor
    · exact Or.inl
    · rintro (hx | rfl)
      · exact hx
      · exact hk
  · simp

theorem dictSet_values_true (d : List (String × Bool)) (k : String)
    (h : ∀ p ∈ d, p.2 = true) : ∀ p ∈ dictSet d k true, p.2 = true := by
  unfold dictSet
  split_ifs with hk
  · intro p hp
    obtain ⟨q, hq, rfl⟩ := List.mem_map.1 hp
    by_cases hqk : q.1 = k <;> simp [hqk, h q hq]
  · intro p hp
    rcases List.mem_append.1 hp with h1 | h1
    · exact h p h1
    · simp only [List.mem_singleton] at h1
      subst h1
      rfl

theorem markSelected_values :
    ∀ (l : List String) (d : List (String × Bool)),
      (∀ p ∈ d, p.2 = true) → ∀ p ∈ markSelected l d, p.2 = true := by
  intro l
  induction l with
  | nil => intro d h; exact h
  | cons a l ih =>
    intro d h
    exact ih _ (dictSet_values_true d a h)

theorem mem_dictKeys_markSelected :
    ∀ (l : List String) (d : List (String × Bool)) (x : String),
      x ∈ dictKeys (markSelected l d) ↔ x ∈ dictKeys d ∨ x ∈ l := by
  intro l
  induction l with
  | nil => simp [markSelected]
  | cons a l ih =>
    intro d x
    rw [markSelected, ih, mem_dictKeys_dictSet]
    simp only [List.mem_cons]
    tauto

theorem pair_mem_of_key (d : List (String × Bool))
    (hv : ∀ p ∈ d, p.2 = true) (k : String) :
    k ∈ dictKeys d ↔ (k, true) ∈ d := by
  unfold dictKeys
  rw [List.mem_map]
  constructor
  · rintro ⟨p, hp, rfl⟩
    have := hv p hp
    obtain ⟨a, b⟩ := p
    simp only at this
    subst this
    exact hp
  · intro h
    exact ⟨(k, true), h, rfl⟩

theorem processGo_values (dps : List String) (sel : List ℕ) :
    ∀ (l : List String) (i : Nat) (d : List (String × Bool)),
      (∀ p ∈ d, p.2 = true) → ∀ p ∈ processGo dps sel i l d, p.2 = true := by
  intro l
  induction l with
  | nil => intro i d h; exact h
  | cons pkg rest ih =>
    intro i d h
    rw [processGo]
    refine ih (i + 1) _ ?_
    split_ifs with h1 h2
    · exact markSelected_values dps d h
    · exact dictSet_values_true d pkg h
    · exact h

theorem exists_head_tail {α : Type} (p : α) (l : List α) (P : Nat → α → Prop) :
    (∃ j a, (p :: l).get? j = some a ∧ P j a) ↔
      (P 0 p ∨ ∃ j a, l.get? j = some a ∧ P (j + 1) a) := by
  constructor
  · rintro ⟨j, a, hj, hP⟩
    cases j with
    | zero =>
      simp only [List.get?] at hj
      cases hj
      exact Or.inl hP
    | succ j => exact Or.inr ⟨j, a, hj, hP⟩
  · rintro (h | ⟨j, a, hj, hP⟩)
    · exact ⟨0, p, rfl, h⟩
    · exact ⟨j + 1, a, hj, hP⟩

theorem mem_dictKeys_processGo (dps : List String) (sel : List ℕ) :
    ∀ (l : List String) (i : Nat) (d : List (String × Bool)) (x : String),
      x ∈ dictKeys (processGo dps sel i l d) ↔
        x ∈ dictKeys d ∨
        ∃ j pkg, l.get? j = some pkg ∧ (i + j) ∈ sel ∧
          ((pkg = "docker" ∧ x ∈ dps) ∨ (pkg ≠ "docker" ∧ x = pkg)) := by
  intro l
  induction l with
  | nil =>
    intro i d x
    simp [processGo]
  | cons pkg rest ih =>
    intro i d x
    rw [processGo, ih, exists_head_tail pkg rest
      (fun j a => (i + j) ∈ sel ∧
        ((a = "docker" ∧ x ∈ dps) ∨ (a ≠ "docker" ∧ x = a)))]
    simp only [Nat.add_zero]
    have harith : ∀ j : Nat, i + 1 + j = i + (j + 1) := by omega
    simp only [harith]
    by_cases hi : i ∈ sel <;> by_cases hd : pkg = "docker" <;>
      simp only [hi, hd, if_pos, if_neg, if_true, if_false, ite_true, ite_false,
        mem_dictKeys_markSelected, mem_dictKeys_dictSet, ne_eq,
        not_true_eq_false, not_false_eq_true, true_and, false_and, and_true,
        and_false, or_false, false_or, not_false_iff] <;>
      aesop

theorem processSelections_values (packages dps : List String) (sel : List ℕ) :
    ∀ p ∈ processSelections packages dps sel, p.2 = true :=
  processGo_values dps sel packages 0 [] (by simp)

theorem mem_dictKeys_processSelections (packages dps : List String)
    (sel : List ℕ) (x : String) :
    x ∈ dictKeys (processSelections packages dps sel) ↔
      ∃ j pkg, packages.get? j = some pkg ∧ j ∈ sel ∧
        ((pkg = "docker" ∧ x ∈ dps) ∨ (pkg ≠ "docker" ∧ x = pkg)) := by
  unfold processSelections
  rw [mem_dictKeys_processGo]
  simp [dictKeys]

theorem displayPackageMenu_some (packages dps : List String) :
    ∀ (inputs : List String) (r : List (String × Bool)),
      displayPackageMenu packages dps inputs = some r →
      ∃ sel, r = processSelections packages dps sel := by
  intro inputs
  induction inputs with
  | nil => intro r h; cases h
  | cons line rest ih =>
    intro r h
    rw [displayPackageMenu] at h
    cases hp : parseSelection (pyLower (pyStrip line)) packages.length with
    | none =>
      rw [hp] at h
      exact ih r h
    | some sel =>
      rw [hp] at h
      simp only [Option.some_inj] at h
      exact ⟨sel, h.symm⟩

/-- C4: the selection prompt accepts exactly three input forms: `all`
selects every package (the full index range), `none` selects no package,
and any other input goes through the comma-separated index parser, where
a token parsing to `k` with `1 ≤ k ≤ len` selects index `k - 1`, i.e. the
`k`-th displayed package (a selected index puts the package at that
position into the result). -/
theorem selection_input_forms (len : Nat) (s tok : String) (k : Int)
    (packages dps : List String) (sel : List ℕ) (j : Nat) (p : String) :
    parseSelection "all" len = some (List.range len)
    ∧ parseSelection "none" len = some []
    ∧ (s ≠ "all" → s ≠ "none" →
        parseSelection s len = parseIndices (pySplitComma s) len [])
    ∧ (pyInt? (pyStrip tok) = some k → 1 ≤ k → k ≤ (len : Int) →
        parseIndices [tok] len [] = some [(k - 1).toNat])
    ∧ (packages.get? j = some p → p ≠ "docker" → j ∈ sel →
        p ∈ dictKeys (processSelections packages dps sel)) := by
  refine ⟨rfl, rfl, ?_, ?_, ?_⟩
  · intro h1 h2
    unfold parseSelection
    rw [if_neg h1, if_neg h2]
  · intro hk h1 h2
    rw [parseIndices, hk]
    simp only
    rw [if_pos (by omega)]
    rw [parseIndices]
    simp [setAdd]
  · intro hj hp hsel
    rw [mem_dictKeys_processSelections]
    exact ⟨j, p, hj, hsel, Or.inr ⟨hp, rfl⟩⟩

/-- C4 witness: the token `2` against the 17-entry menu selects exactly
index 1, and a selected in-bounds index puts the package at that position
(`certbot`, the 3rd entry, for index 2) into the result. -/
theorem selection_input_forms_witness :
    parseIndices ["2"] 17 [] = some [1]
    ∧ "certbot" ∈ dictKeys (processSelections (menuPackages true) dockerSubPkgs [2]) := by
  constructor
  · exact (selection_input_forms 17 "2" "2" 2 [] [] [] 0 "").2.2.2.1
      (by decide) (by decide) (by decide)
  · exact (selection_input_forms 17 "2" "2" 2 (menuPackages true) dockerSubPkgs
      [2] 2 "certbot").2.2.2.2 (by decide) (by decide) (by decide)

/-- C3: with docker available, the menu list contains the umbrella entry
`docker`; whenever its index is selected the result contains each of the
five docker sub-package names (mapped to `True`), never the umbrella name
`docker` itself, and nothing besides the sub-packages and the other
selected menu entries. -/
theorem docker_umbrella_expansion (sel : List ℕ)
    (h : (menuPackages true).indexOf "docker" ∈ sel) :
    (∀ dp ∈ dockerSubPkgs,
      (dp, true) ∈ processSelections (menuPackages true) dockerSubPkgs sel)
    ∧ "docker" ∉ dictKeys (processSelections (menuPackages true) dockerSubPkgs sel)
    ∧ ∀ p ∈ processSelections (menuPackages true) dockerSubPkgs sel,
        p.2 = true ∧
        (p.1 ∈ dockerSubPkgs ∨
          ∃ j, j ∈ sel ∧ (menuPackages true).get? j = some p.1 ∧ p.1 ≠ "docker") := by
  have e : (menuPackages true).indexOf "docker" = 5 := by decide
  rw [e] at h
  refine ⟨?_, ?_, ?_⟩
  · intro dp hdp
    rw [← pair_mem_of_key _ (processSelections_values _ _ _) dp,
      mem_dictKeys_processSelections]
    exact ⟨5, "docker", by decide, h, Or.inl ⟨rfl, hdp⟩⟩
  · intro hmem
    rw [mem_dictKeys_processSelections] at hmem
    obtain ⟨j, pkg, hj, hsel, hC⟩ := hmem
    rcases hC with ⟨rfl, hdps⟩ | ⟨hne, rfl⟩
    · revert hdps; decide
    · exact hne rfl
  · intro p hp
    refine ⟨processSelections_values _ _ _ p hp, ?_⟩
    have hk : p.1 ∈ dictKeys (processSelections (menuPackages true) dockerSubPkgs sel) :=
      List.mem_map.2 ⟨p, hp, rfl⟩
    rw [mem_dictKeys_processSelections] at hk
    obtain ⟨j, pkg, hj, hsel, hC⟩ := hk
    rcases hC with ⟨rfl, hdps⟩ | ⟨hne, rfl⟩
    · exact Or.inl hdps
    · exact Or.inr ⟨j, hsel, hj, hne⟩

/-- C3 witness: selecting only the docker entry (index 5) yields the
sub-package `docker-ce` in the result. -/
theorem docker_umbrella_expansion_witness :
    ("docker-ce", true) ∈ processSelections (menuPackages true) dockerSubPkgs [5] :=
  (docker_umbrella_expansion [5] (by decide)).1 "docker-ce" (by decide)

/-- C9: whatever the user input, every key of the returned selection
dictionary is mapped to `True`, the umbrella name `docker` is never a key
(the docker sub-package list does not contain it), and every key comes
from the displayed list or the docker sub-package list. -/
theorem selection_result_invariant (packages dps inputs : List String)
    (r : List (String × Bool)) (hd : "docker" ∉ dps)
    (h : displayPackageMenu packages dps inputs = some r) :
    ∀ p ∈ r, p.2 = true ∧ p.1 ≠ "docker" ∧ (p.1 ∈ packages ∨ p.1 ∈ dps) := by
  obtain ⟨sel, rfl⟩ := displayPackageMenu_some packages dps inputs r h
  intro p hp
  refine ⟨processSelections_values _ _ _ p hp, ?_, ?_⟩
  · have hk : p.1 ∈ dictKeys (processSelections packages dps sel) :=
      List.mem_map.2 ⟨p, hp, rfl⟩
    rw [mem_dictKeys_processSelections] at hk
    obtain ⟨j, pkg, hj, hsel, hC⟩ := hk
    rcases hC with ⟨rfl, hdps⟩ | ⟨hne, rfl⟩
    · intro hcontra
      rw [hcontra] at hdps
      exact hd hdps
    · exact hne
  · have hk : p.1 ∈ dictKeys (processSelections packages dps sel) :=
      List.mem_map.2 ⟨p, hp, rfl⟩
    rw [mem_dictKeys_processSelections] at hk
    obtain ⟨j, pkg, hj, hsel, hC⟩ := hk
    rcases hC with ⟨rfl, hdps⟩ | ⟨hne, rfl⟩
    · exact Or.inr hdps
    · exact Or.inl (List.get?_mem hj)

/-- C9 witness: with the real menu lists and the reply `1`, the single
result entry satisfies the invariant. -/
theorem selection_result_invariant_witness :
    ("1password-cli", true).2 = true ∧ ("1password-cli", true).1 ≠ "docker" ∧
      (("1password-cli", true).1 ∈ menuPackages true ∨
        ("1password-cli", true).1 ∈ dockerSubPkgs) :=
  selection_result_invariant (menuPackages true) dockerSubPkgs ["1"]
    [("1password-cli", true)] (by decide) (by decide)
    ("1password-cli", true) (by decide)

/-! ## Phase ordering (claim C6) -/

theorem phasesOf_append (a b : List Event) :
    phasesOf (a ++ b) = phasesOf a ++ phasesOf b := by
  simp [phasesOf]

theorem phasesOf_execCommand (env : Nat → ProcessOutcome) (c : Nat)
    (cmd : String) (sh ch : Bool) :
    phasesOf (execCommand env c cmd sh ch).2.2 = [] := rfl

theorem phasesOf_isInstalledExec (env : Nat → ProcessOutcome) (c : Nat)
    (p : String) : phasesOf (isInstalledExec env c p).2.2 = [] := rfl

theorem phasesOf_setupDockerRepository (env : Nat → ProcessOutcome) (c : Nat)
    (g f : Bool) : phasesOf (setup_docker_repository env c g f).2.1 = [] := by
  cases g <;> cases f <;>
    simp [setup_docker_repository, execCommand, phasesOf]

theorem phasesOf_installPlex (env : Nat → ProcessOutcome) (c : Nat) :
    phasesOf (installPlex env c).2 = [] := by
  simp only [installPlex]
  split_ifs <;> simp [execCommand, isInstalledExec, phasesOf]

theorem phasesOf_installBitwardenCli (env : Nat → ProcessOutcome) (c : Nat) :
    phasesOf (installBitwardenCli env c).2 = [] := by
  simp only [installBitwardenCli]
  split_ifs <;> simp [execCommand, isInstalledExec, phasesOf]

theorem phasesOf_installOnePasswordCli (env : Nat → ProcessOutcome) (c : Nat) :
    phasesOf (installOnePasswordCli env c).2 = [] := by
  simp [installOnePasswordCli, execCommand, phasesOf]

theorem phasesOf_installNvm (env : Nat → ProcessOutcome) (c : Nat) :
    phasesOf (installNvm env c).2 = [] := by
  simp [installNvm, execCommand, phasesOf]

theorem phasesOf_installGeneric (env : Nat → ProcessOutcome) (c : Nat)
    (pkg : String) : phasesOf (installGeneric env c pkg).2 = [] := by
  simp only [installGeneric]
  split_ifs <;> simp [execCommand, isInstalledExec, phasesOf]

theorem phasesOf_installOne (env : Nat → ProcessOutcome) (c : Nat)
    (pkg : String) : phasesOf (installOne env c pkg).2 = [] := by
  simp only [installOne]
  split_ifs <;>
    first
      | exact phasesOf_installPlex env c
      | exact phasesOf_installBitwardenCli env c
      | exact phasesOf_installOnePasswordCli env c
      | exact phasesOf_installNvm env c
      | exact phasesOf_installGeneric env c pkg

theorem phasesOf_installLoopGo (env : Nat → ProcessOutcome) :
    ∀ (l : List String) (c : Nat), phasesOf (installLoopGo env l c).2 = [] := by
  intro l
  induction l with
  | nil => intro c; rfl
  | cons pkg rest ih =>
    intro c
    simp only [installLoopGo]
    rw [phasesOf_append, phasesOf_installOne, ih]
    rfl

theorem phasesOf_nil : phasesOf [] = [] := rfl

theorem phasesOf_cons_phase (p : Phase) (es : List Event) :
    phasesOf (Event.phase p :: es) = p :: phasesOf es := rfl

theorem phasesOf_cons_cmd (c : String) (sh ch : Bool) (es : List Event) :
    phasesOf (Event.cmd c sh ch :: es) = phasesOf es := rfl

theorem phasesOf_cons_fileWrite (p ct : String) (es : List Event) :
    phasesOf (Event.fileWrite p ct :: es) = phasesOf es := rfl

theorem install_packages_trace (w : World) :
    ((install_packages w).2.2 = true →
      phasesOf (install_packages w).2.1 =
        [.buildList, .probeDocker, .configureRepo, .menuSelection, .installLoop])
    ∧ ∃ t, phasesOf (install_packages w).2.1 ++ t =
        [Phase.buildList, .probeDocker, .configureRepo, .menuSelection, .installLoop] := by
  simp only [install_packages]
  split_ifs with hrepo hdock
  · split
    · constructor
      · simp
      · exact ⟨[Phase.installLoop], by
          simp [phasesOf_append, phasesOf_cons_phase, phasesOf_cons_cmd,
          phasesOf_cons_fileWrite, phasesOf_nil, phasesOf_setupDockerRepository,
          phasesOf_installLoopGo, execCommand]⟩
    · constructor
      · intro hc
        simp [phasesOf_append, phasesOf_cons_phase, phasesOf_cons_cmd,
          phasesOf_cons_fileWrite, phasesOf_nil, phasesOf_setupDockerRepository,
          phasesOf_installLoopGo, execCommand]
      · exact ⟨[], by
          simp [phasesOf_append, phasesOf_cons_phase, phasesOf_cons_cmd,
          phasesOf_cons_fileWrite, phasesOf_nil, phasesOf_setupDockerRepository,
          phasesOf_installLoopGo, execCommand]⟩
  · split
    · constructor
      · simp
      · exact ⟨[Phase.installLoop], by
          simp [phasesOf_append, phasesOf_cons_phase, phasesOf_cons_cmd,
          phasesOf_cons_fileWrite, phasesOf_nil, phasesOf_setupDockerRepository,
          phasesOf_installLoopGo, execCommand]⟩
    · constructor
      · intro hc
        simp [phasesOf_append, phasesOf_cons_phase, phasesOf_cons_cmd,
          phasesOf_cons_fileWrite, phasesOf_nil, phasesOf_setupDockerRepository,
          phasesOf_installLoopGo, execCommand]
      · exact ⟨[], by
          simp [phasesOf_append, phasesOf_cons_phase, phasesOf_cons_cmd,
          phasesOf_cons_fileWrite, phasesOf_nil, phasesOf_setupDockerRepository,
          phasesOf_installLoopGo, execCommand]⟩
  · constructor
    · simp
    · exact ⟨[Phase.menuSelection, Phase.installLoop], by
        simp [phasesOf_append, phasesOf_cons_phase, phasesOf_cons_cmd,
          phasesOf_cons_fileWrite, phasesOf_nil, phasesOf_setupDockerRepository,
          phasesOf_installLoopGo, execCommand]⟩

/-- C6: every run enters the phases — build the package list, probe
apt-cache for docker, configure the docker repository, render the menu
and collect the selection, run the install loop, print the summary — in
exactly this order: the recorded phase sequence is always a front
segment of the canonical order (an exception truncates it), and a run
that raises no exception performs precisely all six in order. -/
theorem phases_in_order (w : World) :
    (∃ t, phasesOf (runProgram w).trace ++ t = canonicalPhases)
    ∧ ((runProgram w).raised = false →
        phasesOf (runProgram w).trace = canonicalPhases) := by
  have h := install_packages_trace w
  by_cases hc : (install_packages w).2.2
  · obtain ⟨h1, -⟩ := h
    have htr : phasesOf (runProgram w).trace = canonicalPhases := by
      have ht : (runProgram w).trace =
          (install_packages w).2.1 ++ [Event.phase .summary] := by
        simp [runProgram, hc, finalize_script]
      rw [ht, phasesOf_append, h1 hc]
      rfl
    exact ⟨⟨[], by simp [htr]⟩, fun _ => htr⟩
  · obtain ⟨-, t, h2⟩ := h
    constructor
    · refine ⟨t ++ [Phase.summary], ?_⟩
      have htr : (runProgram w).trace = (install_packages w).2.1 := by
        simp [runProgram, hc]
      rw [htr, ← List.append_assoc, h2]
      rfl
    · intro hr
      simp [runProgram, hc] at hr

/-- C6 witness: a fully successful world records exactly the six phases
in the canonical order. -/
theorem phases_in_order_witness :
    phasesOf (runProgram sampleWorld).trace = canonicalPhases :=
  (phases_in_order sampleWorld).2 (by decide)
